import Mathlib

/-!
Verification of the melanoma repository script src/display.py.

The script is a straight-line pipeline:
  mel_data = pd.read_csv('mel_ratios.txt', header=None, names=['image', 'ratio'])
  nv_data  = pd.read_csv('nv_ratios.txt',  header=None, names=['image', 'ratio'])
  plt.figure(figsize=(10, 6))
  plt.hist(mel_data['ratio'], bins=50, alpha=0.5, color='red',  label='Melanoma', range=(0, 0.05))
  plt.hist(nv_data['ratio'],  bins=50, alpha=0.5, color='blue', label='Normal',   range=(0, 0.05))
  plt.xlim(0, 0.05); plt.xlabel('Ratio'); plt.ylabel('Frequency')
  plt.title('Distribution of Ratios: Melanoma vs Normal'); plt.legend()
  plt.savefig('ratio_distribution.png'); plt.close()

The embedding models ratio values as exact rationals.  Library calls are
modelled by their documented semantics:
  - pd.read_csv with header=None and two column names: no header row is
    consumed, blank lines are skipped (skip_blank_lines default), a file with
    no data rows raises EmptyDataError, each remaining line is one record
    whose second comma-delimited field is the ratio;
  - plt.hist with bins=50, range=(0, 0.05): numpy histogram semantics, 50
    equal-width bins over the closed interval, every bin half-open on the
    right except the last bin which also contains the right endpoint, values
    outside the interval are not counted;
  - plt.savefig writes the current figure to the named path, replacing any
    existing file; plt.close removes the current figure from the global
    figure stack.
File systems are total functions from names to optional contents; the
pipeline threads the output file system and the matplotlib figure stack
explicitly, and any failure aborts the run before the save.
-/

namespace Display

/-- One parsed row of an input file; pd.read_csv names the columns image and ratio. -/
structure RatioRecord where
  image : String
  ratio : ℚ
deriving DecidableEq

/-- The ways the script can abort: a missing input file (FileNotFoundError from
open), a file with no data rows (pandas EmptyDataError), or a row that is not
an identifier and a decimal ratio. -/
inductive PipelineError where
  | fileNotFound (name : String)
  | emptyData
  | parseError
deriving DecidableEq

/-- Split a character list at every occurrence of the separator character,
as the comma and dot splitting done by the csv reader. -/
def splitOnChar (c : Char) : List Char → List (List Char)
  | [] => [[]]
  | a :: as =>
    match splitOnChar c as with
    | [] => [[a]]
    | h :: t => if a = c then [] :: h :: t else (a :: h) :: t

/-- Numeric value of a decimal digit character. -/
def digitVal (c : Char) : Option ℕ :=
  if '0' ≤ c ∧ c ≤ '9' then some (c.toNat - Char.toNat '0') else none

/-- Read a digit string left to right, accumulating its value. -/
def digitsToNatAux (acc : ℕ) : List Char → Option ℕ
  | [] => some acc
  | c :: cs =>
    match digitVal c with
    | some d => digitsToNatAux (10 * acc + d) cs
    | none => none

/-- A nonempty all-digit character list denotes a natural number. -/
def digitsToNat (l : List Char) : Option ℕ :=
  match l with
  | [] => none
  | _ => digitsToNatAux 0 l

/-- Parse an unsigned decimal numeral, either whole digits or digits.digits,
to the exact rational it denotes. -/
def parseUnsigned (l : List Char) : Option ℚ :=
  match splitOnChar '.' l with
  | [w] => (digitsToNat w).map (fun n => (n : ℚ))
  | [w, f] =>
    match digitsToNat w, digitsToNat f with
    | some n, some m => some ((n : ℚ) + (m : ℚ) / ((10 ^ f.length : ℕ) : ℚ))
    | _, _ => none
  | _ => none

/-- Parse a possibly negated decimal numeral. -/
def parseRatio (l : List Char) : Option ℚ :=
  match l with
  | '-' :: rest => (parseUnsigned rest).map (fun q => -q)
  | _ => parseUnsigned l

/-- Parse one input line as the comma-delimited pair of an identifier and a
decimal ratio, producing one record; any other shape is malformed. -/
def parseLine (s : String) : Option RatioRecord :=
  match splitOnChar ',' s.toList with
  | [imgField, ratioField] => (parseRatio ratioField).map (fun q => ⟨String.mk imgField, q⟩)
  | _ => none

/-- pd.read_csv with header=None and names=[image, ratio]: no header row is
consumed, blank lines are skipped, a file with no remaining rows raises
EmptyDataError, and every remaining line becomes exactly one record. -/
def read_csv (lines : List String) : Except PipelineError (List RatioRecord) :=
  let rows := lines.filter (fun l => !(l == ""))
  if rows = [] then .error .emptyData
  else if rows.all (fun l => (parseLine l).isSome) then .ok (rows.filterMap parseLine)
  else .error .parseError

/-- The bin count passed to both plt.hist calls. -/
def nbins : ℕ := 50

/-- The lower end of the range passed to both plt.hist calls and to plt.xlim. -/
def rangeLo : ℚ := 0

/-- The upper end of the range passed to both plt.hist calls and to plt.xlim. -/
def rangeHi : ℚ := 0.05

/-- The bin a value is counted in, with numpy histogram semantics: values
below lo or above hi are not counted, every bin is half-open on the right
except the last bin which also contains hi. -/
def binIndex (bins : ℕ) (lo hi v : ℚ) : Option ℕ :=
  if v < lo ∨ hi < v then none
  else some (min (((v - lo) * (bins : ℚ) / (hi - lo)).floor.toNat) (bins - 1))

/-- The edges of the equal-width bins: edge i sits at lo plus i bin widths. -/
def binEdge (bins : ℕ) (lo hi : ℚ) (i : ℕ) : ℚ :=
  lo + (i : ℚ) * ((hi - lo) / (bins : ℚ))

/-- The histogram series of a data list: for each bin, how many values fall
in it. -/
def histCounts (bins : ℕ) (lo hi : ℚ) (data : List ℚ) : List ℕ :=
  (List.range bins).map (fun i => data.countP (fun v => binIndex bins lo hi v == some i))

/-- One overlaid histogram series as drawn by a plt.hist call. -/
structure Series where
  label : String
  color : String
  alpha : ℚ
  counts : List ℕ
deriving DecidableEq

/-- The state of one matplotlib figure: its size, the series drawn on it and
the axis decorations applied to it. -/
structure Figure where
  figsize : ℚ × ℚ
  series : List Series
  xlim : Option (ℚ × ℚ)
  xlabel : Option String
  ylabel : Option String
  title : Option String
  legend : Bool
deriving DecidableEq

deriving instance DecidableEq for Except

/-- The input side of the working directory: text files as line lists. -/
abbrev FS := String → Option (List String)

/-- The output side of the working directory: saved figure files. -/
abbrev OutFS := String → Option Figure

/-- plt.figure(figsize=...): a fresh empty figure. -/
def emptyFigure (size : ℚ × ℚ) : Figure :=
  { figsize := size, series := [], xlim := none, xlabel := none, ylabel := none,
    title := none, legend := false }

/-- Every plt call after plt.figure acts on the current (most recent) figure
of the global figure stack. -/
def modifyCurrent (f : Figure → Figure) : List Figure → List Figure
  | [] => []
  | fig :: rest => f fig :: rest

/-- plt.figure pushes a fresh figure onto the global figure stack. -/
def plt_figure (size : ℚ × ℚ) (s : List Figure) : List Figure :=
  emptyFigure size :: s

/-- plt.hist(data, bins, alpha, color, label, range) draws one histogram
series on the current figure. -/
def plt_hist (data : List ℚ) (bins : ℕ) (alpha : ℚ) (color lab : String)
    (rng : ℚ × ℚ) : List Figure → List Figure :=
  modifyCurrent (fun fig =>
    { fig with series := fig.series ++
        [{ label := lab, color := color, alpha := alpha,
           counts := histCounts bins rng.1 rng.2 data }] })

/-- plt.xlim sets the x-axis bounds of the current figure. -/
def plt_xlim (a b : ℚ) : List Figure → List Figure :=
  modifyCurrent (fun fig => { fig with xlim := some (a, b) })

/-- plt.xlabel sets the x-axis label of the current figure. -/
def plt_xlabel (t : String) : List Figure → List Figure :=
  modifyCurrent (fun fig => { fig with xlabel := some t })

/-- plt.ylabel sets the y-axis label of the current figure. -/
def plt_ylabel (t : String) : List Figure → List Figure :=
  modifyCurrent (fun fig => { fig with ylabel := some t })

/-- plt.title sets the title of the current figure. -/
def plt_title (t : String) : List Figure → List Figure :=
  modifyCurrent (fun fig => { fig with title := some t })

/-- plt.legend turns the legend on for the current figure. -/
def plt_legend : List Figure → List Figure :=
  modifyCurrent (fun fig => { fig with legend := true })

/-- plt.savefig(name) writes the current figure to the named file, replacing
any existing file of that name. -/
def plt_savefig (name : String) (s : List Figure) (out : OutFS) : OutFS :=
  match s with
  | [] => out
  | fig :: _ => fun n => if n = name then some fig else out n

/-- plt.close() pops the current figure off the global figure stack. -/
def plt_close : List Figure → List Figure
  | [] => []
  | _ :: rest => rest

/-- Opening an input file: a missing file raises FileNotFoundError. -/
def readFile (fs : FS) (name : String) : Except PipelineError (List String) :=
  match fs name with
  | none => .error (.fileNotFound name)
  | some ls => .ok ls

/-- The two pd.read_csv calls of lines 6 and 7, in program order: open and
parse mel_ratios.txt, then open and parse nv_ratios.txt, the first failure
propagating. -/
def loadData (fs : FS) : Except PipelineError (List RatioRecord × List RatioRecord) :=
  (readFile fs "mel_ratios.txt").bind (fun melLines =>
    (read_csv melLines).bind (fun mel_data =>
      (readFile fs "nv_ratios.txt").bind (fun nvLines =>
        (read_csv nvLines).bind (fun nv_data =>
          .ok (mel_data, nv_data)))))

/-- The whole script, in program order: read both files, build the figure,
save it, close it.  Any failure propagates and aborts the run (non-zero
process exit) before anything is written. -/
def run (fs : FS) (out : OutFS) (plt : List Figure) :
    Except PipelineError Unit × OutFS × List Figure :=
  match loadData fs with
  | .error e => (.error e, out, plt)
  | .ok (mel_data, nv_data) =>
    let s1 := plt_figure (10, 6) plt
    let s2 := plt_hist (mel_data.map RatioRecord.ratio) nbins 0.5 "red" "Melanoma"
      (rangeLo, rangeHi) s1
    let s3 := plt_hist (nv_data.map RatioRecord.ratio) nbins 0.5 "blue" "Normal"
      (rangeLo, rangeHi) s2
    let s4 := plt_xlim rangeLo rangeHi s3
    let s5 := plt_xlabel "Ratio" s4
    let s6 := plt_ylabel "Frequency" s5
    let s7 := plt_title "Distribution of Ratios: Melanoma vs Normal" s6
    let s8 := plt_legend s7
    let out1 := plt_savefig "ratio_distribution.png" s8 out
    let s9 := plt_close s8
    (.ok (), out1, s9)

/-- The image the pipeline leaves on disk, starting from an empty output
directory and an empty figure stack. -/
def outputImage (fs : FS) : Option Figure :=
  (run fs (fun _ => none) []).2.1 "ratio_distribution.png"

/-- A working directory holding the two input files with the given lines. -/
def mkFS (melLines nvLines : List String) : FS := fun n =>
  if n = "mel_ratios.txt" then some melLines
  else if n = "nv_ratios.txt" then some nvLines
  else none

/-- The series a successful plt.hist call draws. -/
def mkSeries (lab color : String) (alpha : ℚ) (data : List ℚ) : Series :=
  { label := lab, color := color, alpha := alpha,
    counts := histCounts nbins rangeLo rangeHi data }

/-- The figure a successful run builds from the two record lists. -/
def theFigure (mel nv : List RatioRecord) : Figure :=
  { figsize := (10, 6)
    series := [mkSeries "Melanoma" "red" 0.5 (mel.map RatioRecord.ratio),
               mkSeries "Normal" "blue" 0.5 (nv.map RatioRecord.ratio)]
    xlim := some (rangeLo, rangeHi)
    xlabel := some "Ratio"
    ylabel := some "Frequency"
    title := some "Distribution of Ratios: Melanoma vs Normal"
    legend := true }

/-- Writing one file into an output directory. -/
def update (name : String) (fig : Figure) (out : OutFS) : OutFS :=
  fun n => if n = name then some fig else out n

theorem run_eq (fs : FS) (out : OutFS) (plt : List Figure) :
    run fs out plt =
      match loadData fs with
      | .error e => (.error e, out, plt)
      | .ok (mel, nv) => (.ok (), update "ratio_distribution.png" (theFigure mel nv) out, plt) := by
  unfold run
  cases loadData fs with
  | error e => rfl
  | ok p => rfl

theorem outputImage_eq (fs : FS) :
    outputImage fs = (loadData fs).toOption.map (fun p => theFigure p.1 p.2) := by
  unfold outputImage
  rw [run_eq]
  cases loadData fs with
  | error e => rfl
  | ok p => simp [update, Except.toOption]

theorem except_bind_ok {α β : Type} (a : α) (f : α → Except PipelineError β) :
    (Except.ok a : Except PipelineError α).bind f = f a := rfl

theorem except_bind_error {α β : Type} (e : PipelineError)
    (f : α → Except PipelineError β) :
    (Except.error e : Except PipelineError α).bind f =
      (Except.error e : Except PipelineError β) := rfl

theorem loadData_mkFS (melLines nvLines : List String) :
    loadData (mkFS melLines nvLines) =
      (read_csv melLines).bind (fun mel =>
        (read_csv nvLines).bind (fun nv => .ok (mel, nv))) := rfl

theorem binIndex_lt (v : ℚ) (i : ℕ) (h : binIndex nbins rangeLo rangeHi v = some i) :
    i < nbins := by
  unfold binIndex at h
  split at h
  · exact absurd h (by simp)
  · have hi := Option.some.inj h
    have hle : i ≤ nbins - 1 := hi ▸ Nat.min_le_right _ _
    have hpos : 0 < nbins := by norm_num [nbins]
    omega

theorem binIndex_isSome_iff (v : ℚ) :
    (binIndex nbins rangeLo rangeHi v).isSome ↔ (rangeLo ≤ v ∧ v ≤ rangeHi) := by
  unfold binIndex
  split
  next h =>
    simp only [Option.isSome_none, Bool.false_eq_true, false_iff, not_and]
    intro h1 h2
    rcases h with h | h
    · exact absurd h1 (not_le.mpr h)
    · exact absurd h2 (not_le.mpr h)
  next h =>
    push_neg at h
    simpa using h

theorem list_range_map_sum (f : ℕ → ℕ) (n : ℕ) :
    ((List.range n).map f).sum = ∑ i in Finset.range n, f i := by
  induction n with
  | zero => simp
  | succ m ih =>
    rw [List.range_succ, List.map_append, List.sum_append, Finset.sum_range_succ, ih]
    simp

theorem histCounts_sum (data : List ℚ) :
    (histCounts nbins rangeLo rangeHi data).sum =
      data.countP (fun v => (binIndex nbins rangeLo rangeHi v).isSome) := by
  unfold histCounts
  rw [list_range_map_sum]
  induction data with
  | nil => simp
  | cons v t ih =>
    have hone : (∑ i in Finset.range nbins,
        if (binIndex nbins rangeLo rangeHi v == some i) then (1 : ℕ) else 0) =
        if (binIndex nbins rangeLo rangeHi v).isSome then 1 else 0 := by
      cases hbi : binIndex nbins rangeLo rangeHi v with
      | none => simp
      | some j =>
        have hj : j < nbins := binIndex_lt v j hbi
        simp only [Option.isSome_some, if_true, beq_iff_eq, Option.some.injEq]
        rw [Finset.sum_ite_eq (Finset.range nbins) j (fun _ => 1)]
        simp [Finset.mem_range, hj]
    simp only [List.countP_cons]
    rw [Finset.sum_add_distrib, ih, hone]

theorem histCounts_length (bins : ℕ) (lo hi : ℚ) (data : List ℚ) :
    (histCounts bins lo hi data).length = bins := by
  simp [histCounts]

theorem histCounts_perm (bins : ℕ) (lo hi : ℚ) (d d' : List ℚ) (h : d.Perm d') :
    histCounts bins lo hi d = histCounts bins lo hi d' := by
  unfold histCounts
  exact List.map_congr_left (fun i _ => h.countP_eq _)

theorem countP_inRange (data : List ℚ) :
    data.countP (fun v => (binIndex nbins rangeLo rangeHi v).isSome) =
      data.countP (fun v => decide (rangeLo ≤ v ∧ v ≤ rangeHi)) := by
  induction data with
  | nil => rfl
  | cons v t ih =>
    rw [List.countP_cons, List.countP_cons, ih]
    congr 1
    congr 1
    rw [Bool.eq_iff_iff]
    simp [binIndex_isSome_iff]

theorem parseLine_empty : parseLine "" = none := rfl

theorem filter_of_all_parse (lines : List String)
    (hp : ∀ l ∈ lines, (parseLine l).isSome) :
    lines.filter (fun l => !(l == "")) = lines := by
  rw [List.filter_eq_self]
  intro a ha
  by_cases h0 : a = ""
  · subst h0
    have := hp "" ha
    rw [parseLine_empty] at this
    exact absurd this (by simp)
  · simp [h0]

theorem read_csv_of_wf (lines : List String) (hne : lines ≠ [])
    (hp : ∀ l ∈ lines, (parseLine l).isSome) :
    read_csv lines = .ok (lines.filterMap parseLine) := by
  unfold read_csv
  rw [filter_of_all_parse lines hp, if_neg hne,
    if_pos (List.all_eq_true.mpr (fun x hx => hp x hx))]

theorem filterMap_parseLine_length (lines : List String)
    (hp : ∀ l ∈ lines, (parseLine l).isSome) :
    (lines.filterMap parseLine).length = lines.length := by
  induction lines with
  | nil => rfl
  | cons l ls ih =>
    obtain ⟨r, hr⟩ := Option.isSome_iff_exists.mp (hp l (List.mem_cons_self l ls))
    rw [List.filterMap_cons_some hr, List.length_cons, List.length_cons,
      ih (fun x hx => hp x (List.mem_cons_of_mem _ hx))]

theorem filterMap_parseLine_get (lines : List String)
    (hp : ∀ l ∈ lines, (parseLine l).isSome) (i : ℕ) :
    (lines.filterMap parseLine).get? i = (lines.get? i).bind parseLine := by
  induction lines generalizing i with
  | nil => simp
  | cons l ls ih =>
    obtain ⟨r, hr⟩ := Option.isSome_iff_exists.mp (hp l (List.mem_cons_self l ls))
    rw [List.filterMap_cons_some hr]
    cases i with
    | zero => simp [hr]
    | succ n =>
      simp only [List.get?_cons_succ]
      exact ih (fun x hx => hp x (List.mem_cons_of_mem _ hx)) n

theorem read_csv_perm (l l' : List String) (h : l.Perm l') :
    (∃ e, read_csv l = .error e ∧ read_csv l' = .error e) ∨
      ∃ ds ds', read_csv l = .ok ds ∧ read_csv l' = .ok ds' ∧ ds.Perm ds' := by
  have hrows : (l.filter (fun x => !(x == ""))).Perm (l'.filter (fun x => !(x == ""))) :=
    h.filter _
  unfold read_csv
  by_cases he : l.filter (fun x => !(x == "")) = []
  · have he' : l'.filter (fun x => !(x == "")) = [] := by
      have hlen := hrows.length_eq
      rw [he] at hlen
      exact List.length_eq_zero.mp hlen.symm
    rw [if_pos he, if_pos he']
    exact .inl ⟨_, rfl, rfl⟩
  · have he' : ¬ l'.filter (fun x => !(x == "")) = [] := by
      intro hh
      have hlen := hrows.length_eq
      rw [hh] at hlen
      exact he (List.length_eq_zero.mp hlen)
    rw [if_neg he, if_neg he']
    by_cases ha : (l.filter (fun x => !(x == ""))).all (fun x => (parseLine x).isSome)
    · have ha' : (l'.filter (fun x => !(x == ""))).all (fun x => (parseLine x).isSome) := by
        rw [List.all_eq_true] at ha ⊢
        intro x hx
        exact ha x (hrows.mem_iff.mpr hx)
      rw [if_pos ha, if_pos ha']
      exact .inr ⟨_, _, rfl, rfl, hrows.filterMap _⟩
    · have ha' : ¬ (l'.filter (fun x => !(x == ""))).all (fun x => (parseLine x).isSome) := by
        intro hh
        refine ha ?_
        rw [List.all_eq_true] at hh ⊢
        intro x hx
        exact hh x (hrows.mem_iff.mp hx)
      rw [if_neg ha, if_neg ha']
      exact .inl ⟨_, rfl, rfl⟩

theorem theFigure_perm (mel mel' nv nv' : List RatioRecord)
    (hm : mel.Perm mel') (hn : nv.Perm nv') :
    theFigure mel nv = theFigure mel' nv' := by
  unfold theFigure mkSeries
  rw [histCounts_perm nbins rangeLo rangeHi _ _ (hm.map RatioRecord.ratio),
    histCounts_perm nbins rangeLo rangeHi _ _ (hn.map RatioRecord.ratio)]

theorem theFigure_ratio_congr (mel mel' nv nv' : List RatioRecord)
    (hm : mel.map RatioRecord.ratio = mel'.map RatioRecord.ratio)
    (hn : nv.map RatioRecord.ratio = nv'.map RatioRecord.ratio) :
    theFigure mel nv = theFigure mel' nv' := by
  unfold theFigure mkSeries
  rw [hm, hn]

/-- Two input lines that hold the same ratio field, differing at most in the
identifier field, both well formed. -/
def SameRatioLine (l l' : String) : Prop :=
  (parseLine l).isSome ∧ (parseLine l').isSome ∧
    Option.map RatioRecord.ratio (parseLine l) = Option.map RatioRecord.ratio (parseLine l')

instance (l l' : String) : Decidable (SameRatioLine l l') := by
  unfold SameRatioLine
  infer_instance

theorem forall₂_parse_left {l l' : List String}
    (h : List.Forall₂ SameRatioLine l l') : ∀ x ∈ l, (parseLine x).isSome := by
  induction h with
  | nil => simp
  | cons hr _ ih =>
    intro x hx
    rcases List.mem_cons.mp hx with rfl | hx
    · exact hr.1
    · exact ih x hx

theorem forall₂_parse_right {l l' : List String}
    (h : List.Forall₂ SameRatioLine l l') : ∀ x ∈ l', (parseLine x).isSome := by
  induction h with
  | nil => simp
  | cons hr _ ih =>
    intro x hx
    rcases List.mem_cons.mp hx with rfl | hx
    · exact hr.2.1
    · exact ih x hx

theorem forall₂_map_ratio {l l' : List String}
    (h : List.Forall₂ SameRatioLine l l') :
    (l.filterMap parseLine).map RatioRecord.ratio =
      (l'.filterMap parseLine).map RatioRecord.ratio := by
  induction h with
  | nil => rfl
  | cons hr _ ih =>
    obtain ⟨h1, h2, h3⟩ := hr
    obtain ⟨r, hra⟩ := Option.isSome_iff_exists.mp h1
    obtain ⟨s, hsb⟩ := Option.isSome_iff_exists.mp h2
    rw [List.filterMap_cons_some hra, List.filterMap_cons_some hsb,
      List.map_cons, List.map_cons, ih]
    rw [hra, hsb] at h3
    have h4 : r.ratio = s.ratio := by simpa using h3
    rw [h4]

theorem read_csv_sameRatio (l l' : List String)
    (h : List.Forall₂ SameRatioLine l l') :
    (read_csv l = .error .emptyData ∧ read_csv l' = .error .emptyData) ∨
      ∃ ds ds', read_csv l = .ok ds ∧ read_csv l' = .ok ds' ∧
        ds.map RatioRecord.ratio = ds'.map RatioRecord.ratio := by
  cases h with
  | nil => exact .inl ⟨rfl, rfl⟩
  | @cons a b as bs hr hrest =>
    right
    have hwl := forall₂_parse_left (List.Forall₂.cons hr hrest)
    have hwr := forall₂_parse_right (List.Forall₂.cons hr hrest)
    refine ⟨_, _, read_csv_of_wf _ (by simp) hwl, read_csv_of_wf _ (by simp) hwr, ?_⟩
    exact forall₂_map_ratio (List.Forall₂.cons hr hrest)

/-! Concrete example inputs used by the witnesses. -/

def exampleMelLines : List String := ["img1,0.01", "img2,0.02"]

def exampleNvLines : List String := ["img1,0.005"]

def exampleFS : FS := mkFS exampleMelLines exampleNvLines

def exampleFig : Figure :=
  theFigure (exampleMelLines.filterMap parseLine) (exampleNvLines.filterMap parseLine)

def emptyMelFS : FS := mkFS [] ["img1,0.005"]

/-- C1 counterexample: the ratio value 0.05 is greater than or equal to 0.05, yet
it is not excluded from the bin counts: the histogram of the one-value dataset
0.05 has total count 1 (numpy puts the right endpoint in the last bin), not an
all-zero series as the claim states. -/
theorem C1_counterexample :
    (0.05 : ℚ) ≥ rangeHi ∧ (histCounts nbins rangeLo rangeHi [(0.05 : ℚ)]).sum = 1 := by
  constructor
  · exact le_refl _
  · with_unfolding_all decide

/-- C1 (amended): every ratio value strictly less than 0 or strictly greater
than 0.05 is excluded from the bin counts, and a dataset whose ratio values all
lie strictly outside [0, 0.05] produces the all-zero histogram series (binning
is total, so no error arises); the boundary value 0.05 itself is counted, in
the last bin. -/
theorem C1_outside_excluded (data : List ℚ)
    (h : ∀ v ∈ data, v < rangeLo ∨ rangeHi < v) :
    (∀ v ∈ data, binIndex nbins rangeLo rangeHi v = none) ∧
      histCounts nbins rangeLo rangeHi data = List.replicate nbins 0 ∧
      binIndex nbins rangeLo rangeHi rangeHi = some (nbins - 1) := by
  have hnone : ∀ v ∈ data, binIndex nbins rangeLo rangeHi v = none := by
    intro v hv
    unfold binIndex
    rw [if_pos (h v hv)]
  refine ⟨hnone, ?_, by with_unfolding_all decide⟩
  refine List.eq_replicate_iff.mpr ⟨histCounts_length _ _ _ _, ?_⟩
  intro b hb
  unfold histCounts at hb
  obtain ⟨i, _, rfl⟩ := List.mem_map.mp hb
  refine List.countP_eq_zero.mpr ?_
  intro a ha
  rw [hnone a ha]
  simp

/-- C1 witness: the dataset [-1, 0.06] lies strictly outside [0, 0.05] and its
histogram series is all zeros. -/
theorem C1_witness :
    (∀ v ∈ [(-1 : ℚ), (0.06 : ℚ)], v < rangeLo ∨ rangeHi < v) ∧
      ((∀ v ∈ [(-1 : ℚ), (0.06 : ℚ)], binIndex nbins rangeLo rangeHi v = none) ∧
        histCounts nbins rangeLo rangeHi [(-1 : ℚ), (0.06 : ℚ)] = List.replicate nbins 0 ∧
        binIndex nbins rangeLo rangeHi rangeHi = some (nbins - 1)) :=
  ⟨by with_unfolding_all decide, C1_outside_excluded _ (by with_unfolding_all decide)⟩

/-- C2: whenever the pipeline writes an image, both overlaid series were binned
by the one fixed histogram specification: 50 equal-width bins spanning 0 to
0.05 (so the bin edges of the two series coincide), each series holding 50 bin
counts computed by the same binning function. -/
theorem C2_shared_spec (fs : FS) (fig : Figure) (h : outputImage fs = some fig) :
    nbins = 50 ∧ rangeLo = 0 ∧ rangeHi = 0.05 ∧
      binEdge nbins rangeLo rangeHi 0 = 0 ∧
      binEdge nbins rangeLo rangeHi nbins = 0.05 ∧
      (∀ i : ℕ, binEdge nbins rangeLo rangeHi (i + 1) - binEdge nbins rangeLo rangeHi i =
        (rangeHi - rangeLo) / (nbins : ℚ)) ∧
      (∃ mel nv : List ℚ, fig.series.map Series.counts =
        [histCounts nbins rangeLo rangeHi mel, histCounts nbins rangeLo rangeHi nv]) ∧
      ∀ s ∈ fig.series, s.counts.length = nbins := by
  rw [outputImage_eq] at h
  cases hl : loadData fs with
  | error e =>
    rw [hl] at h
    exact absurd h (by simp [Except.toOption])
  | ok p =>
    rw [hl] at h
    simp only [Except.toOption, Option.map_some'] at h
    obtain rfl : theFigure p.1 p.2 = fig := by simpa using h
    refine ⟨rfl, rfl, rfl, by simp [binEdge, rangeLo], ?_, ?_, ?_, ?_⟩
    · norm_num [binEdge, rangeLo, rangeHi, nbins]
    · intro i
      unfold binEdge
      push_cast
      ring
    · exact ⟨p.1.map RatioRecord.ratio, p.2.map RatioRecord.ratio, rfl⟩
    · intro s hs
      have hs2 : s = mkSeries "Melanoma" "red" 0.5 (p.1.map RatioRecord.ratio) ∨
          s = mkSeries "Normal" "blue" 0.5 (p.2.map RatioRecord.ratio) := by
        simpa [theFigure] using hs
      rcases hs2 with rfl | rfl
      · exact histCounts_length _ _ _ _
      · exact histCounts_length _ _ _ _

/-- C2 witness: the example run produces an image and the shared-specification
facts hold of it. -/
theorem C2_witness :
    nbins = 50 ∧ rangeLo = 0 ∧ rangeHi = 0.05 ∧
      binEdge nbins rangeLo rangeHi 0 = 0 ∧
      binEdge nbins rangeLo rangeHi nbins = 0.05 ∧
      (∀ i : ℕ, binEdge nbins rangeLo rangeHi (i + 1) - binEdge nbins rangeLo rangeHi i =
        (rangeHi - rangeLo) / (nbins : ℚ)) ∧
      (∃ mel nv : List ℚ, exampleFig.series.map Series.counts =
        [histCounts nbins rangeLo rangeHi mel, histCounts nbins rangeLo rangeHi nv]) ∧
      ∀ s ∈ exampleFig.series, s.counts.length = nbins :=
  C2_shared_spec exampleFS exampleFig (by with_unfolding_all decide)

/-- C3: if either input file is missing, the run ends in an error (non-zero
process exit), the output directory is untouched (in particular
ratio_distribution.png is not produced) and the figure stack is untouched. -/
theorem C3_missing_input (fs : FS) (out : OutFS) (plt : List Figure)
    (h : fs "mel_ratios.txt" = none ∨ fs "nv_ratios.txt" = none) :
    (∃ e, (run fs out plt).1 = Except.error e) ∧
      (run fs out plt).2.1 = out ∧ (run fs out plt).2.2 = plt := by
  have her : ∃ e, loadData fs = .error e := by
    unfold loadData
    rcases h with h | h
    · rw [show readFile fs "mel_ratios.txt" =
          .error (.fileNotFound "mel_ratios.txt") from by unfold readFile; rw [h]]
      exact ⟨_, rfl⟩
    · cases hm : readFile fs "mel_ratios.txt" with
      | error e => exact ⟨_, rfl⟩
      | ok melLines =>
        rw [except_bind_ok]
        cases hcsv : read_csv melLines with
        | error e => exact ⟨_, rfl⟩
        | ok mel =>
          rw [except_bind_ok,
            show readFile fs "nv_ratios.txt" =
              .error (.fileNotFound "nv_ratios.txt") from by unfold readFile; rw [h]]
          exact ⟨_, rfl⟩
  obtain ⟨e, he⟩ := her
  rw [run_eq, he]
  exact ⟨⟨e, rfl⟩, rfl, rfl⟩

/-- C3 witness: with no input files at all the run errors and writes nothing. -/
theorem C3_witness :
    ((fun _ => none : FS) "mel_ratios.txt" = none ∨
        (fun _ => none : FS) "nv_ratios.txt" = none) ∧
      ((∃ e, (run (fun _ => none) (fun _ => none) []).1 = Except.error e) ∧
        (run (fun _ => none) (fun _ => none) []).2.1 = (fun _ => none) ∧
        (run (fun _ => none) (fun _ => none) []).2.2 = []) :=
  ⟨Or.inl rfl, C3_missing_input _ _ _ (Or.inl rfl)⟩

/-- C4 counterexample: with 0 records in mel_ratios.txt the pipeline does not
succeed: pandas raises EmptyDataError and no image is produced, refuting the
claim for the record count 0. -/
theorem C4_counterexample :
    (run emptyMelFS (fun _ => none) []).1 = Except.error PipelineError.emptyData ∧
      outputImage emptyMelFS = none := by
  constructor
  · with_unfolding_all decide
  · with_unfolding_all decide

/-- C4 (amended): for every pair of input files each containing at least one
record (every line a well-formed identifier-comma-ratio record), the pipeline
succeeds and the output image contains exactly two labeled series, Melanoma
then Normal; a file with zero records instead aborts the loader. -/
theorem C4_two_series (melLines nvLines : List String)
    (hm1 : melLines ≠ []) (hm2 : ∀ l ∈ melLines, (parseLine l).isSome)
    (hn1 : nvLines ≠ []) (hn2 : ∀ l ∈ nvLines, (parseLine l).isSome) :
    ∃ fig, outputImage (mkFS melLines nvLines) = some fig ∧
      fig.series.map Series.label = ["Melanoma", "Normal"] := by
  rw [outputImage_eq, loadData_mkFS, read_csv_of_wf melLines hm1 hm2,
    read_csv_of_wf nvLines hn1 hn2]
  exact ⟨_, rfl, rfl⟩

/-- C4 witness: the example pair of files (2 records and 1 record) yields an
image with the two labeled series. -/
theorem C4_witness :
    ∃ fig, outputImage (mkFS exampleMelLines exampleNvLines) = some fig ∧
      fig.series.map Series.label = ["Melanoma", "Normal"] :=
  C4_two_series exampleMelLines exampleNvLines (by decide)
    (by with_unfolding_all decide) (by decide) (by with_unfolding_all decide)

/-- C5: permuting the rows of either input file leaves the run, and hence the
output image, unchanged: histogram binning is order-independent. -/
theorem C5_row_order (melLines melLines' nvLines nvLines' : List String)
    (out : OutFS) (plt : List Figure)
    (hm : melLines.Perm melLines') (hn : nvLines.Perm nvLines') :
    run (mkFS melLines nvLines) out plt = run (mkFS melLines' nvLines') out plt := by
  rw [run_eq, run_eq, loadData_mkFS, loadData_mkFS]
  rcases read_csv_perm _ _ hm with ⟨e, h1, h2⟩ | ⟨ds, ds', h1, h2, hp⟩
  · simp only [h1, h2]
    rfl
  · simp only [h1, h2, except_bind_ok]
    rcases read_csv_perm _ _ hn with ⟨e, g1, g2⟩ | ⟨es, es', g1, g2, gp⟩
    · simp only [g1, g2]
      rfl
    · simp only [g1, g2, except_bind_ok]
      exact congrArg
        (fun fg => (Except.ok (), update "ratio_distribution.png" fg out, plt))
        (theFigure_perm _ _ _ _ hp gp)

/-- C5 witness: swapping the two rows of the example melanoma file leaves the
run unchanged. -/
theorem C5_witness :
    run (mkFS ["img1,0.01", "img2,0.02"] ["img1,0.005"]) (fun _ => none) [] =
      run (mkFS ["img2,0.02", "img1,0.01"] ["img1,0.005"]) (fun _ => none) [] :=
  C5_row_order _ _ _ _ _ _ (List.Perm.swap "img2,0.02" "img1,0.01" [])
    (List.Perm.refl _)

/-- C6: the pipeline is deterministic: runs over equal input files give the
same exit status, and on success the same written image, whatever the prior
output directory and figure-stack state. -/
theorem C6_deterministic (fs fs' : FS) (out out' : OutFS) (plt plt' : List Figure)
    (h : ∀ n, fs n = fs' n) :
    (run fs out plt).1 = (run fs' out' plt').1 ∧
      ((run fs out plt).1 = Except.ok () →
        (run fs out plt).2.1 "ratio_distribution.png" =
          (run fs' out' plt').2.1 "ratio_distribution.png") := by
  have hfs : fs = fs' := funext h
  subst hfs
  rw [run_eq, run_eq]
  cases hl : loadData fs with
  | error e => exact ⟨rfl, fun hcon => Except.noConfusion hcon⟩
  | ok p => exact ⟨rfl, fun _ => by simp [update]⟩

/-- C6 witness: the example run is equal to itself component-wise. -/
theorem C6_witness :
    (run exampleFS (fun _ => none) []).1 = (run exampleFS (fun _ => none) []).1 ∧
      ((run exampleFS (fun _ => none) []).1 = Except.ok () →
        (run exampleFS (fun _ => none) []).2.1 "ratio_distribution.png" =
          (run exampleFS (fun _ => none) []).2.1 "ratio_distribution.png") :=
  C6_deterministic exampleFS exampleFS (fun _ => none) (fun _ => none) [] []
    (fun _ => rfl)

/-- C7: the identifier field does not influence the computation: two pairs of
input files whose rows agree on the ratio field row by row (same row counts)
produce identical runs, hence identical output images. -/
theorem C7_identifier_irrelevant (melLines melLines' nvLines nvLines' : List String)
    (out : OutFS) (plt : List Figure)
    (hm : List.Forall₂ SameRatioLine melLines melLines')
    (hn : List.Forall₂ SameRatioLine nvLines nvLines') :
    run (mkFS melLines nvLines) out plt = run (mkFS melLines' nvLines') out plt := by
  rw [run_eq, run_eq, loadData_mkFS, loadData_mkFS]
  rcases read_csv_sameRatio _ _ hm with ⟨h1, h2⟩ | ⟨ds, ds', h1, h2, hp⟩
  · simp only [h1, h2]
    rfl
  · simp only [h1, h2, except_bind_ok]
    rcases read_csv_sameRatio _ _ hn with ⟨g1, g2⟩ | ⟨es, es', g1, g2, gp⟩
    · simp only [g1, g2]
      rfl
    · simp only [g1, g2, except_bind_ok]
      exact congrArg
        (fun fg => (Except.ok (), update "ratio_distribution.png" fg out, plt))
        (theFigure_ratio_congr _ _ _ _ hp gp)

/-- C7 witness: renaming every identifier while keeping the ratio columns
leaves the run unchanged. -/
theorem C7_witness :
    run (mkFS ["a,0.01"] ["b,0.005"]) (fun _ => none) [] =
      run (mkFS ["c,0.01"] ["d,0.005"]) (fun _ => none) [] :=
  C7_identifier_irrelevant _ _ _ _ _ _
    (List.Forall₂.cons (by with_unfolding_all decide) List.Forall₂.nil)
    (List.Forall₂.cons (by with_unfolding_all decide) List.Forall₂.nil)

/-- C8: the loader parses every line of a well-formed input file as one
comma-delimited identifier-ratio record, consuming no header row: the dataset
has exactly one record per input line, record i parsed from line i. -/
theorem C8_loader (lines : List String) (h1 : lines ≠ [])
    (h2 : ∀ l ∈ lines, (parseLine l).isSome) :
    ∃ ds, read_csv lines = .ok ds ∧ ds.length = lines.length ∧
      ∀ i : ℕ, ds.get? i = (lines.get? i).bind parseLine :=
  ⟨_, read_csv_of_wf lines h1 h2, filterMap_parseLine_length lines h2,
    filterMap_parseLine_get lines h2⟩

/-- C8 witness: the two-line example file loads to exactly two records, in
line order. -/
theorem C8_witness :
    ∃ ds, read_csv exampleMelLines = .ok ds ∧ ds.length = exampleMelLines.length ∧
      ∀ i : ℕ, ds.get? i = (exampleMelLines.get? i).bind parseLine :=
  C8_loader exampleMelLines (by decide) (by with_unfolding_all decide)

/-- C9: on success the writer stores the rendered figure under
ratio_distribution.png (overwriting whatever the output directory held there,
with no condition on the prior contents), touches no other file, and the
figure stack is back to its initial state: the figure opened by the run was
closed, so no figure state persists. -/
theorem C9_save_and_close (fs : FS) (out : OutFS) (plt : List Figure)
    (h : (run fs out plt).1 = Except.ok ()) :
    (∃ fig, (run fs out plt).2.1 "ratio_distribution.png" = some fig) ∧
      (∀ n, n ≠ "ratio_distribution.png" → (run fs out plt).2.1 n = out n) ∧
      (run fs out plt).2.2 = plt := by
  rw [run_eq] at h ⊢
  cases hl : loadData fs with
  | error e =>
    rw [hl] at h
    exact Except.noConfusion h
  | ok p =>
    refine ⟨⟨theFigure p.1 p.2, by simp [update]⟩, ?_, rfl⟩
    intro n hn
    simp [update, hn]

/-- C9 witness: the example run succeeds, writes the image, and restores the
empty figure stack. -/
theorem C9_witness :
    (∃ fig, (run exampleFS (fun _ => none) []).2.1 "ratio_distribution.png" = some fig) ∧
      (∀ n, n ≠ "ratio_distribution.png" →
        (run exampleFS (fun _ => none) []).2.1 n = none) ∧
      (run exampleFS (fun _ => none) []).2.2 = [] :=
  C9_save_and_close exampleFS (fun _ => none) [] (by with_unfolding_all decide)

/-- C10: the 50 bins partition the in-range values: the sum of the 50 bin
counts equals the number of data values lying inside [0, 0.05], and every
in-range value falls in exactly one bin. -/
theorem C10_partition (data : List ℚ) :
    (histCounts nbins rangeLo rangeHi data).sum =
      data.countP (fun v => decide (rangeLo ≤ v ∧ v ≤ rangeHi)) ∧
      ∀ v ∈ data, rangeLo ≤ v → v ≤ rangeHi →
        ∃! i, binIndex nbins rangeLo rangeHi v = some i := by
  constructor
  · rw [histCounts_sum, countP_inRange]
  · intro v _ h1 h2
    have hs : (binIndex nbins rangeLo rangeHi v).isSome :=
      (binIndex_isSome_iff v).mpr ⟨h1, h2⟩
    obtain ⟨i, hi⟩ := Option.isSome_iff_exists.mp hs
    refine ⟨i, hi, ?_⟩
    intro j hj
    rw [hj] at hi
    exact Option.some.inj hi

/-- C10 witness: for the one-value dataset 0.01 the bin counts sum to the
in-range count and 0.01 falls in exactly one bin. -/
theorem C10_witness :
    (histCounts nbins rangeLo rangeHi [(0.01 : ℚ)]).sum =
      [(0.01 : ℚ)].countP (fun v => decide (rangeLo ≤ v ∧ v ≤ rangeHi)) ∧
      ∃! i, binIndex nbins rangeLo rangeHi (0.01 : ℚ) = some i :=
  ⟨(C10_partition [(0.01 : ℚ)]).1,
    (C10_partition [(0.01 : ℚ)]).2 (0.01 : ℚ) (by simp)
      (by with_unfolding_all decide) (by with_unfolding_all decide)⟩

end Display
